import Mathlib

/-!
Shallow embedding of `src/spline_interpolation.py`
(`interpolate_missing_data_3d_spline`) and proofs about it.

Modelling conventions:
* Machine floats are modelled by exact rationals together with an explicit
  NaN element (`V.nan`).  The arithmetic used by the code (adds, subtracts,
  multiplications and divisions by nonzero knot differences) is exact on
  the rationals and propagates NaN exactly as IEEE arithmetic does for
  these operations, so no rounding behaviour is lost that any claim
  depends on.
* A numpy 3-d array of shape (time, x, y) is a nested list, outer index =
  time.  numpy reads out of range never occur on the paths claims exercise
  except for the time index of the final write, which the code takes from
  the caller: Python/numpy semantics (negative wrap-around, IndexError
  outside [-T, T)) are modelled explicitly in `wrapIdx` and `locStep`.
* `scipy.interpolate.interp1d(x, y, kind='cubic', fill_value="extrapolate")`
  constructs the not-a-knot cubic interpolating spline through the points
  and evaluates it, extrapolating with the boundary cubic pieces outside
  the knot range.  Construction raises `ValueError` when fewer than 4
  points are supplied (`x and y arrays must have at least 4 entries`);
  no NaN filtering or NaN check is performed, NaN values propagate into
  the spline coefficients.  The spline is embedded concretely: the
  classical second-derivative (tridiagonal plus not-a-knot rows) linear
  system is solved by exact Gaussian elimination; the solver's control
  flow depends only on the (always finite, rational) knot matrix, and a
  (mathematically unreachable for distinct knots) singular system is
  surfaced as an error, mirroring a LinAlgError.
* `numpy.array([])` on the empty valid-index list has float dtype, and
  fancy-indexing with a float array raises `IndexError`; this happens in
  the source before the `>= 2` length check whenever the valid-index list
  is empty (T = 1 with missing_index = 0), and is modelled in
  `pixelResult`.
* The `print` diagnostic for skipped locations is modelled as a list of
  skipped (x, y) coordinates threaded through the loop and returned next
  to the array.
-/

/-- A float value: an exact rational or NaN. -/
inductive V where
  | nan : V
  | num : ℚ → V
deriving DecidableEq, Repr

/-- IEEE addition restricted to finite/NaN values. -/
def V.add : V → V → V
  | V.num a, V.num b => V.num (a + b)
  | _, _ => V.nan

/-- IEEE subtraction restricted to finite/NaN values. -/
def V.sub : V → V → V
  | V.num a, V.num b => V.num (a - b)
  | _, _ => V.nan

/-- Multiplication by a finite rational scalar (NaN propagates). -/
def V.smul (c : ℚ) : V → V
  | V.num a => V.num (c * a)
  | V.nan => V.nan

/-- Division by a finite rational scalar (NaN propagates). -/
def V.divQ : V → ℚ → V
  | V.num a, c => V.num (a / c)
  | V.nan, _ => V.nan

/-- A 3-d numpy array of shape (time, x, y): nested lists, outer = time. -/
abbrev Volume : Type := List (List (List V))

/-- `data_3d.shape[0]` (time axis length). -/
def tDim (d : Volume) : ℕ := d.length

/-- `data_3d.shape[1]`. -/
def xDim (d : Volume) : ℕ := (d.getD 0 []).length

/-- `data_3d.shape[2]`. -/
def yDim (d : Volume) : ℕ := ((d.getD 0 []).getD 0 []).length

/-- `data_3d[t, x, y]` (in-range reads; junk default outside). -/
def vget (d : Volume) (t x y : ℕ) : V :=
  ((d.getD t []).getD x []).getD y V.nan

/-- `data_3d[t, x, y] = v` for an in-range ℕ time index. -/
def vset (d : Volume) (t x y : ℕ) (v : V) : Volume :=
  d.set t ((d.getD t []).set x (((d.getD t []).getD x []).set y v))

/-- The array is an honest rectangular (T, X, Y) numpy array. -/
def RectShape (d : Volume) (T X Y : ℕ) : Prop :=
  d.length = T ∧ ∀ s ∈ d, s.length = X ∧ ∀ r ∈ s, r.length = Y

instance (d : Volume) (T X Y : ℕ) : Decidable (RectShape d T X Y) := by
  unfold RectShape; infer_instance

/-- Errors the Python code can raise on the modelled paths. -/
inductive Err where
  | valueError : Err
  | indexError : Err
  | linalgError : Err
deriving DecidableEq, Repr

/-- Knot spacings `h i = x (i+1) - x i`. -/
def hsOf (xs : List ℚ) : List ℚ :=
  List.zipWith (fun a b => b - a) xs xs.tail

/-- Entry (i, j) of the linear system for the second derivatives of the
not-a-knot cubic spline: rows 1..n-2 are the standard tridiagonal
continuity equations, rows 0 and n-1 are the two not-a-knot conditions
(third-derivative continuity at the second and the second-to-last knot). -/
def entryA (h : List ℚ) (n i j : ℕ) : ℚ :=
  if i = 0 then
    if j = 0 then h.getD 1 0
    else if j = 1 then -(h.getD 0 0 + h.getD 1 0)
    else if j = 2 then h.getD 0 0
    else 0
  else if i = n - 1 then
    if j = n - 3 then h.getD (n - 2) 0
    else if j = n - 2 then -(h.getD (n - 3) 0 + h.getD (n - 2) 0)
    else if j = n - 1 then h.getD (n - 3) 0
    else 0
  else
    if j + 1 = i then h.getD (i - 1) 0
    else if j = i then 2 * (h.getD (i - 1) 0 + h.getD i 0)
    else if j = i + 1 then h.getD i 0
    else 0

/-- The not-a-knot spline system matrix for knots `xs`. -/
def buildA (xs : List ℚ) : List (List ℚ) :=
  (List.range xs.length).map (fun i =>
    (List.range xs.length).map (fun j => entryA (hsOf xs) xs.length i j))

/-- The right-hand side of the spline system for values `ys`. -/
def buildB (xs : List ℚ) (ys : List V) : List V :=
  (List.range xs.length).map (fun i =>
    if i = 0 ∨ i = xs.length - 1 then V.num 0
    else
      V.smul 6 (V.sub
        (V.divQ (V.sub (ys.getD (i + 1) V.nan) (ys.getD i V.nan))
          ((hsOf xs).getD i 1))
        (V.divQ (V.sub (ys.getD i V.nan) (ys.getD (i - 1) V.nan))
          ((hsOf xs).getD (i - 1) 1))))

/-- Move the first row with a nonzero leading coefficient to the front
(row exchange of the exact elimination; decisions depend only on the
rational matrix part, never on the possibly-NaN right-hand side). -/
def pivotSplit : List (List ℚ × V) → Option ((List ℚ × V) × List (List ℚ × V))
  | [] => Option.none
  | r :: rest =>
    if r.1.headD 0 = 0 then
      Option.bind (pivotSplit rest) (fun prs => Option.some (prs.1, r :: prs.2))
    else Option.some (r, rest)

/-- Eliminate the leading coefficient of row `r` against pivot row `p`. -/
def elimAgainst (p : List ℚ × V) (r : List ℚ × V) : List ℚ × V :=
  ((List.zipWith (fun a b => a - (r.1.headD 0 / p.1.headD 0) * b) r.1 p.1).tail,
    V.sub r.2 (V.smul (r.1.headD 0 / p.1.headD 0) p.2))

/-- Forward elimination; returns the pivot rows (triangular system). -/
def forwardElim : ℕ → List (List ℚ × V) → Option (List (List ℚ × V))
  | 0, _ => Option.some []
  | n + 1, rows =>
    Option.bind (pivotSplit rows) (fun pr =>
      Option.bind (forwardElim n (pr.2.map (elimAgainst pr.1))) (fun tri =>
        Option.some (pr.1 :: tri)))

/-- `Σ c i * x i` over value vectors. -/
def dotQV (cs : List ℚ) (xs : List V) : V :=
  (List.zipWith V.smul cs xs).foldl V.add (V.num 0)

/-- Back substitution over the reversed triangular system. -/
def backSub : List (List ℚ × V) → List V → List V
  | [], acc => acc
  | r :: rest, acc =>
    backSub rest (V.divQ (V.sub r.2 (dotQV r.1.tail acc)) (r.1.headD 1) :: acc)

/-- Exact linear solve; `none` models a LinAlgError on a singular system. -/
def gaussSolve (A : List (List ℚ)) (b : List V) : Option (List V) :=
  Option.bind (forwardElim A.length (List.zip A b))
    (fun tri => Option.some (backSub tri.reverse []))

/-- The state of `interp1d(x, y, kind='cubic', fill_value="extrapolate")`:
knots, values, and the spline's second derivatives at the knots. -/
structure Itp where
  pts : List ℚ
  vals : List V
  m2 : List V

/-- `interp1d(valid_time_points, valid_data_points, kind='cubic',
fill_value="extrapolate")`: raises ValueError with fewer than 4 points,
otherwise solves for the not-a-knot spline coefficients. -/
def interp1dCubic (xs : List ℚ) (ys : List V) : Except Err Itp :=
  if xs.length < 4 then Except.error Err.valueError
  else
    (gaussSolve (buildA xs) (buildB xs ys)).elim (Except.error Err.linalgError)
      (fun m => Except.ok ⟨xs, ys, m⟩)

/-- Index of the cubic piece used for query `q`: the piece whose knot
interval contains `q`, and the first/last piece below/above the knot
range (polynomial extrapolation). -/
def findSeg (pts : List ℚ) (q : ℚ) : ℕ :=
  ((pts.take (pts.length - 1)).countP (fun k => decide (k ≤ q))) - 1

/-- The cubic piece on [x0, x1] in the second-derivative form, evaluated
at `q` (also used beyond [x0, x1] for extrapolation). -/
def segEval (x0 x1 : ℚ) (y0 y1 m0 m1 : V) (q : ℚ) : V :=
  V.add
    (V.add (V.smul ((x1 - q) ^ 3 / (6 * (x1 - x0))) m0)
      (V.smul ((q - x0) ^ 3 / (6 * (x1 - x0))) m1))
    (V.add
      (V.smul ((x1 - q) / (x1 - x0))
        (V.sub y0 (V.smul ((x1 - x0) ^ 2 / 6) m0)))
      (V.smul ((q - x0) / (x1 - x0))
        (V.sub y1 (V.smul ((x1 - x0) ^ 2 / 6) m1))))

/-- `interpolator(q)`: evaluate the spline, extrapolating outside. -/
def evalItp (it : Itp) (q : ℚ) : V :=
  segEval (it.pts.getD (findSeg it.pts q) 0) (it.pts.getD (findSeg it.pts q + 1) 0)
    (it.vals.getD (findSeg it.pts q) V.nan) (it.vals.getD (findSeg it.pts q + 1) V.nan)
    (it.m2.getD (findSeg it.pts q) V.nan) (it.m2.getD (findSeg it.pts q + 1) V.nan) q

/-- Construct the interpolator and evaluate it at `q`. -/
def fitEval (xs : List ℚ) (ys : List V) (q : ℚ) : Except Err V :=
  (interp1dCubic xs ys).map (fun it => evalItp it q)

/-- `[i for i in range(time_steps) if i != missing_index]`.  The missing
index is a raw Python int, so a negative or too-large `missing` excludes
nothing. -/
def validIndices (T : ℕ) (missing : ℤ) : List ℕ :=
  (List.range T).filter (fun i => decide ((i : ℤ) ≠ missing))

/-- The body of the double loop for one location `(x, y)`:
`Except.ok none` = skipped (fewer than 2 valid samples),
`Except.ok (some v)` = value to store at the missing index.
An empty valid-index list means `np.array([])` has float dtype and the
fancy indexing `time_series[valid_time_points]` raises IndexError before
the length check. -/
def pixelResult (d : Volume) (missing : ℤ) (x y : ℕ) : Except Err (Option V) :=
  if (validIndices (tDim d) missing).isEmpty then Except.error Err.indexError
  else if 2 ≤ (validIndices (tDim d) missing).length then
    (fitEval ((validIndices (tDim d) missing).map (fun (i : ℕ) => (i : ℚ)))
      ((validIndices (tDim d) missing).map (fun i => vget d i x y)) (missing : ℚ)).map
      Option.some
  else Except.ok Option.none

/-- Python list/array time indexing: wrap a negative index, IndexError
outside [-T, T). -/
def wrapIdx (missing : ℤ) (T : ℕ) : Option ℕ :=
  if 0 ≤ missing ∧ missing < (T : ℤ) then Option.some missing.toNat
  else if -(T : ℤ) ≤ missing ∧ missing < 0 then Option.some (missing + (T : ℤ)).toNat
  else Option.none

/-- One iteration of the inner loop at location `p = (x, y)`: compute the
per-pixel fit from the original array and either store the value at the
(possibly wrapped) missing time index of the output copy or record the
skip diagnostic. -/
def locStep (d : Volume) (missing : ℤ) (st : Volume × List (ℕ × ℕ)) (p : ℕ × ℕ) :
    Except Err (Volume × List (ℕ × ℕ)) :=
  match pixelResult d missing p.1 p.2 with
  | Except.error e => Except.error e
  | Except.ok Option.none => Except.ok (st.1, st.2 ++ [p])
  | Except.ok (Option.some v) =>
    match wrapIdx missing (tDim st.1) with
    | Option.none => Except.error Err.indexError
    | Option.some j => Except.ok (vset st.1 j p.1 p.2 v, st.2)

/-- Run the loop over a list of locations, propagating a raised error. -/
def runLocs (d : Volume) (missing : ℤ) (st : Volume × List (ℕ × ℕ)) :
    List (ℕ × ℕ) → Except Err (Volume × List (ℕ × ℕ))
  | [] => Except.ok st
  | p :: ps =>
    match locStep d missing st p with
    | Except.error e => Except.error e
    | Except.ok st' => runLocs d missing st' ps

/-- `for x in range(x_dim): for y in range(y_dim)` iteration order. -/
def allLocs (X Y : ℕ) : List (ℕ × ℕ) :=
  (List.range X).flatMap (fun x => (List.range Y).map (fun y => (x, y)))

/-- `interpolate_missing_data_3d_spline(data_3d, missing_index)`: start
from a copy of the input, process every location, return the array
together with the list of skipped locations (the printed diagnostics). -/
def interpolate_missing_data_3d_spline (d : Volume) (missing : ℤ) :
    Except Err (Volume × List (ℕ × ℕ)) :=
  runLocs d missing (d, []) (allLocs (xDim d) (yDim d))

theorem V.add_num (a b : ℚ) : V.add (V.num a) (V.num b) = V.num (a + b) := rfl

theorem V.add_nan_right (v : V) : V.add v V.nan = V.nan := by cases v <;> rfl

theorem V.add_nan_left (v : V) : V.add V.nan v = V.nan := rfl

theorem V.sub_num (a b : ℚ) : V.sub (V.num a) (V.num b) = V.num (a - b) := rfl

theorem V.sub_nan_left (v : V) : V.sub V.nan v = V.nan := rfl

theorem V.sub_nan_right (v : V) : V.sub v V.nan = V.nan := by cases v <;> rfl

theorem V.smul_num (c a : ℚ) : V.smul c (V.num a) = V.num (c * a) := rfl

theorem V.smul_nan (c : ℚ) : V.smul c V.nan = V.nan := rfl

theorem V.divQ_num (a c : ℚ) : V.divQ (V.num a) c = V.num (a / c) := rfl

theorem V.divQ_nan (c : ℚ) : V.divQ V.nan c = V.nan := rfl

/-- A `segEval` whose two data values are NaN is NaN whatever the
coefficients: NaN propagates through the IEEE operations. -/
theorem segEval_nan (x0 x1 : ℚ) (m0 m1 : V) (q : ℚ) :
    segEval x0 x1 V.nan V.nan m0 m1 q = V.nan := by
  simp [segEval, V.sub_nan_left, V.smul_nan, V.add_nan_right]

/-- Any `getD` from an all-NaN list with NaN default is NaN. -/
theorem getD_nan_of_all_nan (l : List V) (h : ∀ v ∈ l, v = V.nan) (i : ℕ) :
    l.getD i V.nan = V.nan := by
  rw [List.getD_eq_getElem?_getD]
  cases hg : l[i]? with
  | none => rfl
  | some v => exact h v (List.getElem?_mem hg)

/-! ## Lemmas about reads and writes of the 3-d array -/

theorem getD_set_ne {α : Type} (l : List α) (i j : ℕ) (a dflt : α) (h : i ≠ j) :
    (l.set i a).getD j dflt = l.getD j dflt := by
  rw [List.getD_eq_getElem?_getD, List.getD_eq_getElem?_getD, List.getElem?_set_ne h]

theorem getD_set_self {α : Type} (l : List α) (i : ℕ) (a dflt : α) (h : i < l.length) :
    (l.set i a).getD i dflt = a := by
  rw [List.getD_eq_getElem?_getD, List.getElem?_set_self h]
  rfl

/-- Writes at a different (t, x, y) never change a cell. -/
theorem vget_vset_ne (d : Volume) (t x y t' x' y' : ℕ) (v : V)
    (h : t ≠ t' ∨ x ≠ x' ∨ y ≠ y') :
    vget (vset d t x y v) t' x' y' = vget d t' x' y' := by
  unfold vget vset
  rcases h with h | h | h
  · rw [getD_set_ne _ _ _ _ _ h]
  · by_cases ht : t = t'
    · subst ht
      by_cases hlt : t < d.length
      · rw [getD_set_self _ _ _ _ hlt, getD_set_ne _ _ _ _ _ h]
      · rw [List.set_eq_of_length_le (Nat.le_of_not_lt hlt)]
    · rw [getD_set_ne _ _ _ _ _ ht]
  · by_cases ht : t = t'
    · subst ht
      by_cases hlt : t < d.length
      · rw [getD_set_self _ _ _ _ hlt]
        by_cases hx : x = x'
        · subst hx
          by_cases hxl : x < (d.getD t []).length
          · rw [getD_set_self _ _ _ _ hxl, getD_set_ne _ _ _ _ _ h]
          · rw [List.set_eq_of_length_le (Nat.le_of_not_lt hxl)]
        · rw [getD_set_ne _ _ _ _ _ hx]
      · rw [List.set_eq_of_length_le (Nat.le_of_not_lt hlt)]
    · rw [getD_set_ne _ _ _ _ _ ht]

/-- An in-range write is read back. -/
theorem vget_vset_self (d : Volume) (t x y : ℕ) (v : V)
    (ht : t < d.length) (hx : x < (d.getD t []).length)
    (hy : y < ((d.getD t []).getD x []).length) :
    vget (vset d t x y v) t x y = v := by
  unfold vget vset
  rw [getD_set_self _ _ _ _ ht, getD_set_self _ _ _ _ hx, getD_set_self _ _ _ _ hy]

theorem tDim_vset (d : Volume) (t x y : ℕ) (v : V) : tDim (vset d t x y v) = tDim d :=
  List.length_set d t _

/-- A `getD` read inside the list length is a member of the list. -/
theorem getD_mem {α : Type} (l : List α) (i : ℕ) (dflt : α) (h : i < l.length) :
    l.getD i dflt ∈ l := by
  rw [List.getD_eq_getElem?_getD, List.getElem?_eq_getElem h]
  exact List.getElem_mem h

/-- `vset` keeps the rectangular shape. -/
theorem rectShape_vset (d : Volume) (T X Y t x y : ℕ) (v : V)
    (h : RectShape d T X Y) : RectShape (vset d t x y v) T X Y := by
  obtain ⟨hT, hrow⟩ := h
  by_cases hlt : t < d.length
  case neg =>
    unfold vset
    rw [List.set_eq_of_length_le (Nat.le_of_not_lt hlt)]
    exact ⟨hT, hrow⟩
  obtain ⟨hlen, hcell⟩ := hrow _ (getD_mem d t [] hlt)
  by_cases hxl : x < (d.getD t []).length
  case neg =>
    refine ⟨by simpa [vset] using hT, ?_⟩
    intro s hs
    unfold vset at hs
    rw [List.set_eq_of_length_le (Nat.le_of_not_lt hxl)] at hs
    rcases List.mem_or_eq_of_mem_set hs with hmem | rfl
    · exact hrow s hmem
    · exact hrow _ (getD_mem d t [] hlt)
  refine ⟨by simpa [vset] using hT, ?_⟩
  intro s hs
  rcases List.mem_or_eq_of_mem_set hs with hmem | rfl
  · exact hrow s hmem
  refine ⟨by simpa using hlen, ?_⟩
  intro r hr
  rcases List.mem_or_eq_of_mem_set hr with hmem2 | rfl
  · exact hcell r hmem2
  · simpa using hcell _ (getD_mem _ x [] hxl)

/-! ## Lemmas about index handling -/

theorem wrapIdx_valid (missing : ℤ) (T : ℕ) (h0 : 0 ≤ missing) (h1 : missing < (T : ℤ)) :
    wrapIdx missing T = Option.some missing.toNat := by
  simp [wrapIdx, h0, h1]

theorem wrapIdx_lt (missing : ℤ) (T : ℕ) (j : ℕ) (h : wrapIdx missing T = Option.some j) :
    j < T := by
  unfold wrapIdx at h
  split at h
  · rename_i hc
    cases h
    omega
  · split at h
    · rename_i hc
      cases h
      omega
    · cases h

theorem wrapIdx_none_of_ge (missing : ℤ) (T : ℕ) (h : (T : ℤ) ≤ missing) :
    wrapIdx missing T = Option.none := by
  simp only [wrapIdx]
  rw [if_neg (by omega), if_neg (by omega)]

theorem mem_validIndices (T : ℕ) (missing : ℤ) (i : ℕ) :
    i ∈ validIndices T missing ↔ i < T ∧ (i : ℤ) ≠ missing := by
  simp [validIndices, List.mem_filter]

/-- A too-large missing index excludes nothing from the valid list. -/
theorem validIndices_of_ge (T : ℕ) (missing : ℤ) (h : (T : ℤ) ≤ missing) :
    validIndices T missing = List.range T := by
  apply List.filter_eq_self.mpr
  intro a ha
  have := List.mem_range.mp ha
  simp only [decide_eq_true_eq]
  omega

/-- An in-range missing index excludes exactly itself: the per-location
fit always sees T - 1 valid samples. -/
theorem length_validIndices (T : ℕ) (missing : ℤ) (h0 : 0 ≤ missing)
    (h1 : missing < (T : ℤ)) : (validIndices T missing).length = T - 1 := by
  have he : validIndices T missing = (List.range T).erase missing.toNat := by
    rw [(List.nodup_range T).erase_eq_filter missing.toNat]
    apply List.filter_congr
    intro i hi
    have h : ((i : ℤ) = missing) ↔ (i = missing.toNat) := by omega
    simp [bne, h]
    rfl
  rw [he, List.length_erase_of_mem (List.mem_range.mpr (by omega)), List.length_range]

theorem mem_allLocs (X Y x y : ℕ) : (x, y) ∈ allLocs X Y ↔ x < X ∧ y < Y := by
  simp [allLocs]

theorem nodup_allLocs (X Y : ℕ) : (allLocs X Y).Nodup := by
  apply List.nodup_flatMap.mpr
  constructor
  · intro x _
    exact (List.nodup_range Y).map (fun a b hab => by simpa using hab)
  · apply List.Pairwise.imp ?_ (List.pairwise_lt_range X)
    intro a b hab
    intro p hp hq
    simp only [List.mem_map] at hp hq
    obtain ⟨ya, _, rfl⟩ := hp
    obtain ⟨yb, _, h⟩ := hq
    cases h
    omega

/-- Every in-range location splits the iteration order into a prefix and
a suffix that do not mention it again. -/
theorem allLocs_split (X Y x y : ℕ) (hx : x < X) (hy : y < Y) :
    ∃ L1 L2, allLocs X Y = L1 ++ (x, y) :: L2 ∧ (x, y) ∉ L1 ∧ (x, y) ∉ L2 := by
  obtain ⟨L1, L2, hsplit⟩ := List.append_of_mem ((mem_allLocs X Y x y).mpr ⟨hx, hy⟩)
  refine ⟨L1, L2, hsplit, ?_, ?_⟩
  · have hnd := nodup_allLocs X Y
    rw [hsplit] at hnd
    intro hmem
    exact (List.disjoint_of_nodup_append hnd) hmem (List.mem_cons_self _ _)
  · have hnd := nodup_allLocs X Y
    rw [hsplit] at hnd
    have := (List.nodup_append.mp hnd).2.1
    exact (List.nodup_cons.mp this).1

theorem allLocs_head (X Y : ℕ) (hx : 0 < X) (hy : 0 < Y) :
    ∃ rest, allLocs X Y = (0, 0) :: rest := by
  obtain ⟨X', rfl⟩ := Nat.exists_eq_add_of_lt hx
  obtain ⟨Y', rfl⟩ := Nat.exists_eq_add_of_lt hy
  rw [allLocs, Nat.zero_add, Nat.zero_add, List.range_succ_eq_map, List.range_succ_eq_map]
  exact ⟨_, rfl⟩

/-! ## Lemmas about the location loop -/

theorem locStep_error_of_pixel (d : Volume) (missing : ℤ) (st : Volume × List (ℕ × ℕ))
    (p : ℕ × ℕ) (e : Err) (h : pixelResult d missing p.1 p.2 = Except.error e) :
    locStep d missing st p = Except.error e := by
  simp [locStep, h]

theorem locStep_skip (d : Volume) (missing : ℤ) (st : Volume × List (ℕ × ℕ))
    (p : ℕ × ℕ) (h : pixelResult d missing p.1 p.2 = Except.ok Option.none) :
    locStep d missing st p = Except.ok (st.1, st.2 ++ [p]) := by
  simp [locStep, h]

theorem locStep_write (d : Volume) (missing : ℤ) (st : Volume × List (ℕ × ℕ))
    (p : ℕ × ℕ) (v : V) (j : ℕ)
    (h : pixelResult d missing p.1 p.2 = Except.ok (Option.some v))
    (hw : wrapIdx missing (tDim st.1) = Option.some j) :
    locStep d missing st p = Except.ok (vset st.1 j p.1 p.2 v, st.2) := by
  simp [locStep, h, hw]

theorem runLocs_cons_error (d : Volume) (missing : ℤ) (st : Volume × List (ℕ × ℕ))
    (p : ℕ × ℕ) (ps : List (ℕ × ℕ)) (e : Err)
    (h : locStep d missing st p = Except.error e) :
    runLocs d missing st (p :: ps) = Except.error e := by
  simp [runLocs, h]

/-- Inversion of one accepted loop step. -/
theorem locStep_ok_cases (d : Volume) (missing : ℤ) (st st' : Volume × List (ℕ × ℕ))
    (p : ℕ × ℕ) (h : locStep d missing st p = Except.ok st') :
    (pixelResult d missing p.1 p.2 = Except.ok Option.none ∧ st' = (st.1, st.2 ++ [p]))
    ∨ (∃ v j, pixelResult d missing p.1 p.2 = Except.ok (Option.some v)
        ∧ wrapIdx missing (tDim st.1) = Option.some j
        ∧ st' = (vset st.1 j p.1 p.2 v, st.2)) := by
  unfold locStep at h
  cases hp : pixelResult d missing p.1 p.2 with
  | error e => rw [hp] at h; cases h
  | ok v =>
    rw [hp] at h
    cases v with
    | none =>
      left
      cases h
      exact ⟨rfl, rfl⟩
    | some w =>
      right
      cases hw : wrapIdx missing (tDim st.1) with
      | none => rw [hw] at h; cases h
      | some j =>
        rw [hw] at h
        cases h
        exact ⟨w, j, rfl, rfl, rfl⟩

theorem tDim_locStep (d : Volume) (missing : ℤ) (st st' : Volume × List (ℕ × ℕ))
    (p : ℕ × ℕ) (h : locStep d missing st p = Except.ok st') :
    tDim st'.1 = tDim st.1 := by
  rcases locStep_ok_cases d missing st st' p h with ⟨_, rfl⟩ | ⟨v, j, _, _, rfl⟩
  · rfl
  · exact tDim_vset _ _ _ _ _

theorem rectShape_locStep (d : Volume) (missing : ℤ) (st st' : Volume × List (ℕ × ℕ))
    (p : ℕ × ℕ) (T X Y : ℕ) (h : locStep d missing st p = Except.ok st')
    (hR : RectShape st.1 T X Y) : RectShape st'.1 T X Y := by
  rcases locStep_ok_cases d missing st st' p h with ⟨_, rfl⟩ | ⟨v, j, _, _, rfl⟩
  · exact hR
  · exact rectShape_vset _ _ _ _ _ _ _ _ hR

/-- Inversion of an accepted loop run over a cons. -/
theorem runLocs_cons_ok (d : Volume) (missing : ℤ) (st out : Volume × List (ℕ × ℕ))
    (p : ℕ × ℕ) (ps : List (ℕ × ℕ))
    (h : runLocs d missing st (p :: ps) = Except.ok out) :
    ∃ st', locStep d missing st p = Except.ok st' ∧ runLocs d missing st' ps = Except.ok out := by
  unfold runLocs at h
  cases hs : locStep d missing st p with
  | error e => rw [hs] at h; cases h
  | ok st' => rw [hs] at h; exact ⟨st', rfl, h⟩

/-- Splitting an accepted loop run over an append. -/
theorem runLocs_append_ok (d : Volume) (missing : ℤ) (st out : Volume × List (ℕ × ℕ))
    (L1 L2 : List (ℕ × ℕ)) (h : runLocs d missing st (L1 ++ L2) = Except.ok out) :
    ∃ st1, runLocs d missing st L1 = Except.ok st1
      ∧ runLocs d missing st1 L2 = Except.ok out := by
  induction L1 generalizing st with
  | nil => exact ⟨st, rfl, h⟩
  | cons p ps ih =>
    rw [List.cons_append] at h
    obtain ⟨st', hstep, hrun⟩ := runLocs_cons_ok d missing st out p (ps ++ L2) h
    obtain ⟨st1, h1, h2⟩ := ih st' hrun
    refine ⟨st1, ?_, h2⟩
    unfold runLocs
    rw [hstep]
    exact h1

theorem runLocs_rect (d : Volume) (missing : ℤ) (st out : Volume × List (ℕ × ℕ))
    (L : List (ℕ × ℕ)) (T X Y : ℕ) (h : runLocs d missing st L = Except.ok out)
    (hR : RectShape st.1 T X Y) : RectShape out.1 T X Y := by
  induction L generalizing st with
  | nil => cases h; exact hR
  | cons p ps ih =>
    obtain ⟨st', hstep, hrun⟩ := runLocs_cons_ok d missing st out p ps h
    exact ih st' hrun (rectShape_locStep d missing st st' p T X Y hstep hR)

/-- Along an accepted run, every cell at a time index other than the one
the (wrapped) missing index designates is passed through unchanged. -/
theorem runLocs_preserve_ne (d : Volume) (missing : ℤ) (st out : Volume × List (ℕ × ℕ))
    (L : List (ℕ × ℕ)) (h : runLocs d missing st L = Except.ok out)
    (t x y : ℕ) (ht : ∀ j, wrapIdx missing (tDim st.1) = Option.some j → t ≠ j) :
    vget out.1 t x y = vget st.1 t x y := by
  induction L generalizing st with
  | nil => cases h; rfl
  | cons p ps ih =>
    obtain ⟨st', hstep, hrun⟩ := runLocs_cons_ok d missing st out p ps h
    have htd := tDim_locStep d missing st st' p hstep
    rcases locStep_ok_cases d missing st st' p hstep with ⟨_, rfl⟩ | ⟨v, j, _, hw, rfl⟩
    · exact ih (st.1, st.2 ++ [p]) hrun ht
    · rw [ih (vset st.1 j p.1 p.2 v, st.2) hrun (by simpa [htd] using ht)]
      exact vget_vset_ne _ _ _ _ _ _ _ _ (Or.inl (Ne.symm (ht j hw)))

/-- A location that never occurs in the remaining iteration list keeps
all its cells unchanged along an accepted run. -/
theorem runLocs_preserve_cell (d : Volume) (missing : ℤ) (st out : Volume × List (ℕ × ℕ))
    (L : List (ℕ × ℕ)) (x y : ℕ) (h : runLocs d missing st L = Except.ok out)
    (hmem : (x, y) ∉ L) (t : ℕ) :
    vget out.1 t x y = vget st.1 t x y := by
  induction L generalizing st with
  | nil => cases h; rfl
  | cons p ps ih =>
    obtain ⟨st', hstep, hrun⟩ := runLocs_cons_ok d missing st out p ps h
    have hp : p ≠ (x, y) := fun hp => hmem (hp ▸ List.mem_cons_self p ps)
    have hps : (x, y) ∉ ps := fun hm => hmem (List.mem_cons_of_mem p hm)
    rcases locStep_ok_cases d missing st st' p hstep with ⟨_, rfl⟩ | ⟨v, j, _, hw, rfl⟩
    · exact ih (st.1, st.2 ++ [p]) hrun hps
    · rw [ih (vset st.1 j p.1 p.2 v, st.2) hrun hps]
      refine vget_vset_ne _ _ _ _ _ _ _ _ (Or.inr ?_)
      by_cases hx : p.1 = x
      · right
        intro hy
        exact hp (by rw [← hx, ← hy])
      · exact Or.inl hx

/-- When every location is skipped the run accepts, returns the state
array untouched, and appends every location to the diagnostics. -/
theorem runLocs_skip_all (d : Volume) (missing : ℤ) (st : Volume × List (ℕ × ℕ))
    (L : List (ℕ × ℕ)) (h : ∀ p ∈ L, pixelResult d missing p.1 p.2 = Except.ok Option.none) :
    runLocs d missing st L = Except.ok (st.1, st.2 ++ L) := by
  induction L generalizing st with
  | nil => simp [runLocs]
  | cons p ps ih =>
    have hp := locStep_skip d missing st p (h p (List.mem_cons_self p ps))
    simp only [runLocs, hp]
    rw [ih (st.1, st.2 ++ [p]) (fun q hq => h q (List.mem_cons_of_mem p hq))]
    simp

/-- When every location computes a value without error and the missing
index wraps in range, the whole run accepts. -/
theorem runLocs_all_ok (d : Volume) (missing : ℤ) (st : Volume × List (ℕ × ℕ))
    (L : List (ℕ × ℕ)) (j : ℕ)
    (hpix : ∀ p ∈ L, ∃ r, pixelResult d missing p.1 p.2 = Except.ok r)
    (hw : wrapIdx missing (tDim d) = Option.some j) (hT : tDim st.1 = tDim d) :
    ∃ out, runLocs d missing st L = Except.ok out := by
  induction L generalizing st with
  | nil => exact ⟨st, rfl⟩
  | cons p ps ih =>
    obtain ⟨r, hr⟩ := hpix p (List.mem_cons_self p ps)
    have hrest : ∀ q ∈ ps, ∃ r, pixelResult d missing q.1 q.2 = Except.ok r :=
      fun q hq => hpix q (List.mem_cons_of_mem p hq)
    cases r with
    | none =>
      obtain ⟨out, hout⟩ := ih (st.1, st.2 ++ [p]) hrest hT
      refine ⟨out, ?_⟩
      simp only [runLocs, locStep_skip d missing st p hr]
      exact hout
    | some v =>
      obtain ⟨out, hout⟩ := ih (vset st.1 j p.1 p.2 v, st.2) hrest
        (Eq.trans (tDim_vset _ _ _ _ _) hT)
      refine ⟨out, ?_⟩
      simp only [runLocs, locStep_write d missing st p v j hr (by rw [hT]; exact hw)]
      exact hout

/-- Main characterization of one cell of an accepted call: an in-range
location is either skipped (all its time steps pass through) or its
per-pixel value is stored at the wrapped missing index, all other time
steps passing through. -/
theorem run_char (d : Volume) (missing : ℤ) (out : Volume) (ds : List (ℕ × ℕ))
    (hR : RectShape d (tDim d) (xDim d) (yDim d))
    (hok : interpolate_missing_data_3d_spline d missing = Except.ok (out, ds))
    (x y : ℕ) (hx : x < xDim d) (hy : y < yDim d) :
    (pixelResult d missing x y = Except.ok Option.none
      ∧ ∀ t, vget out t x y = vget d t x y)
    ∨ (∃ v j, pixelResult d missing x y = Except.ok (Option.some v)
        ∧ wrapIdx missing (tDim d) = Option.some j ∧ vget out j x y = v
        ∧ ∀ t, t ≠ j → vget out t x y = vget d t x y) := by
  obtain ⟨L1, L2, hsplit, hn1, hn2⟩ := allLocs_split (xDim d) (yDim d) x y hx hy
  unfold interpolate_missing_data_3d_spline at hok
  rw [hsplit] at hok
  obtain ⟨st1, hrun1, hrest⟩ :=
    runLocs_append_ok d missing (d, []) (out, ds) L1 ((x, y) :: L2) hok
  obtain ⟨st2, hstep, hrun2⟩ := runLocs_cons_ok d missing st1 (out, ds) (x, y) L2 hrest
  have hR1 : RectShape st1.1 (tDim d) (xDim d) (yDim d) :=
    runLocs_rect d missing (d, []) st1 L1 _ _ _ hrun1 hR
  have htd1 : tDim st1.1 = tDim d := hR1.1
  have hpre : ∀ t, vget st1.1 t x y = vget d t x y :=
    runLocs_preserve_cell d missing (d, []) st1 L1 x y hrun1 hn1
  rcases locStep_ok_cases d missing st1 st2 (x, y) hstep with ⟨hpix, hst2⟩ | ⟨v, j, hpix, hw, hst2⟩
  · left
    subst hst2
    refine ⟨hpix, fun t => ?_⟩
    have hpost := runLocs_preserve_cell d missing _ (out, ds) L2 x y hrun2 hn2 t
    exact hpost.trans (hpre t)
  · right
    subst hst2
    have hjlt : j < st1.1.length := wrapIdx_lt missing (tDim st1.1) j hw
    have hrow := hR1.2 _ (getD_mem st1.1 j [] hjlt)
    have hxl : x < (st1.1.getD j []).length := by rw [hrow.1]; exact hx
    have hyl : y < ((st1.1.getD j []).getD x []).length := by
      rw [hrow.2 _ (getD_mem _ x [] hxl)]
      exact hy
    refine ⟨v, j, hpix, by rw [← htd1]; exact hw, ?_, ?_⟩
    · have hpost := runLocs_preserve_cell d missing _ (out, ds) L2 x y hrun2 hn2 j
      exact hpost.trans (vget_vset_self st1.1 j x y v hjlt hxl hyl)
    · intro t htj
      have hpost := runLocs_preserve_cell d missing _ (out, ds) L2 x y hrun2 hn2 t
      rw [hpost, vget_vset_ne _ _ _ _ _ _ _ _ (Or.inl (Ne.symm htj))]
      exact hpre t

/-! ## The concrete spline computations behind the claims -/

/-- Exact solution of the uniformly-spaced 4-point not-a-knot system. -/
theorem gauss_uniform (p q : ℚ) :
    gaussSolve [[1,-2,1,0],[1,4,1,0],[0,1,4,1],[0,1,-2,1]]
      [V.num 0, V.num p, V.num q, V.num 0]
    = Option.some [V.num (p/3 - q/6), V.num (p/6), V.num (q/6), V.num (q/3 - p/6)] := by
  norm_num [gaussSolve, forwardElim, pivotSplit, elimAgainst, backSub, dotQV,
    V.add_num, V.sub_num, V.smul_num, V.divQ_num]
  norm_num [pivotSplit, elimAgainst, backSub, dotQV,
    V.add_num, V.sub_num, V.smul_num, V.divQ_num]
  ring_nf
  simp

/-- The 4-point cubic fit on knots 1, 2, 3, 4 extrapolated to 0 takes
the value of the Lagrange cubic through the four samples at 0. -/
theorem fit1234 (a b c d : ℚ) :
    fitEval [1,2,3,4] [V.num a, V.num b, V.num c, V.num d] 0
    = Except.ok (V.num (4*a - 6*b + 4*c - d)) := by
  have hA : buildA [1,2,3,4] = [[1,-2,1,0],[1,4,1,0],[0,1,4,1],[0,1,-2,1]] := by
    norm_num [buildA, entryA, hsOf, List.range_succ]
  have hB : buildB [1,2,3,4] [V.num a, V.num b, V.num c, V.num d]
      = [V.num 0, V.num (6*(a-2*b+c)), V.num (6*(b-2*c+d)), V.num 0] := by
    norm_num [buildB, hsOf, V.sub_num, V.divQ_num, V.smul_num, List.range_succ]
    exact ⟨by ring, by ring⟩
  have hseg : findSeg [1,2,3,4] (0:ℚ) = 0 := by
    norm_num [findSeg, List.countP_cons]
  have hit : interp1dCubic [1,2,3,4] [V.num a, V.num b, V.num c, V.num d]
      = Except.ok ⟨[1,2,3,4], [V.num a, V.num b, V.num c, V.num d],
          [V.num ((6*(a-2*b+c))/3 - (6*(b-2*c+d))/6), V.num ((6*(a-2*b+c))/6),
            V.num ((6*(b-2*c+d))/6), V.num ((6*(b-2*c+d))/3 - (6*(a-2*b+c))/6)]⟩ := by
    rw [interp1dCubic, if_neg (by norm_num), hA, hB, gauss_uniform, Option.elim_some]
  rw [fitEval, hit]
  have hev : evalItp ⟨[1,2,3,4], [V.num a, V.num b, V.num c, V.num d],
      [V.num ((6*(a-2*b+c))/3 - (6*(b-2*c+d))/6), V.num ((6*(a-2*b+c))/6),
        V.num ((6*(b-2*c+d))/6), V.num ((6*(b-2*c+d))/3 - (6*(a-2*b+c))/6)]⟩ 0
      = V.num (4*a - 6*b + 4*c - d) := by
    simp only [evalItp, hseg]
    norm_num [segEval, V.add_num, V.sub_num, V.smul_num]
    ring
  rw [Except.map, hev]

/-- The elimination never inspects the right-hand side, so the uniform
4-point system is solvable whatever the (possibly NaN) values are. -/
theorem gauss_any (u v : V) :
    (gaussSolve [[1,-2,1,0],[1,4,1,0],[0,1,4,1],[0,1,-2,1]]
      [V.num 0, u, v, V.num 0]).isSome = true := by
  norm_num [gaussSolve, forwardElim, pivotSplit, elimAgainst, backSub, dotQV]

theorem buildB_0123 (w0 w1 w2 w3 : V) :
    buildB [0,1,2,3] [w0, w1, w2, w3]
    = [V.num 0,
        V.smul 6 (V.sub (V.divQ (V.sub w2 w1) 1) (V.divQ (V.sub w1 w0) 1)),
        V.smul 6 (V.sub (V.divQ (V.sub w3 w2) 1) (V.divQ (V.sub w2 w1) 1)),
        V.num 0] := by
  norm_num [buildB, hsOf, List.range_succ]

theorem interpOk_0123 (w0 w1 w2 w3 : V) :
    ∃ it, interp1dCubic [0,1,2,3] [w0, w1, w2, w3] = Except.ok it := by
  have hA : buildA [0,1,2,3] = [[1,-2,1,0],[1,4,1,0],[0,1,4,1],[0,1,-2,1]] := by
    norm_num [buildA, entryA, hsOf, List.range_succ]
  unfold interp1dCubic
  rw [if_neg (by norm_num), hA, buildB_0123]
  cases hg : gaussSolve [[1,-2,1,0],[1,4,1,0],[0,1,4,1],[0,1,-2,1]]
      [V.num 0,
        V.smul 6 (V.sub (V.divQ (V.sub w2 w1) 1) (V.divQ (V.sub w1 w0) 1)),
        V.smul 6 (V.sub (V.divQ (V.sub w3 w2) 1) (V.divQ (V.sub w2 w1) 1)),
        V.num 0] with
  | none =>
    have := gauss_any (V.smul 6 (V.sub (V.divQ (V.sub w2 w1) 1) (V.divQ (V.sub w1 w0) 1)))
      (V.smul 6 (V.sub (V.divQ (V.sub w3 w2) 1) (V.divQ (V.sub w2 w1) 1)))
    rw [hg] at this
    cases this
  | some m => exact ⟨_, rfl⟩

theorem buildB_1234 (w0 w1 w2 w3 : V) :
    buildB [1,2,3,4] [w0, w1, w2, w3]
    = [V.num 0,
        V.smul 6 (V.sub (V.divQ (V.sub w2 w1) 1) (V.divQ (V.sub w1 w0) 1)),
        V.smul 6 (V.sub (V.divQ (V.sub w3 w2) 1) (V.divQ (V.sub w2 w1) 1)),
        V.num 0] := by
  norm_num [buildB, hsOf, List.range_succ]

theorem interpOk_1234 (w0 w1 w2 w3 : V) :
    ∃ it, interp1dCubic [1,2,3,4] [w0, w1, w2, w3] = Except.ok it := by
  have hA : buildA [1,2,3,4] = [[1,-2,1,0],[1,4,1,0],[0,1,4,1],[0,1,-2,1]] := by
    norm_num [buildA, entryA, hsOf, List.range_succ]
  unfold interp1dCubic
  rw [if_neg (by norm_num), hA, buildB_1234]
  cases hg : gaussSolve [[1,-2,1,0],[1,4,1,0],[0,1,4,1],[0,1,-2,1]]
      [V.num 0,
        V.smul 6 (V.sub (V.divQ (V.sub w2 w1) 1) (V.divQ (V.sub w1 w0) 1)),
        V.smul 6 (V.sub (V.divQ (V.sub w3 w2) 1) (V.divQ (V.sub w2 w1) 1)),
        V.num 0] with
  | none =>
    have := gauss_any (V.smul 6 (V.sub (V.divQ (V.sub w2 w1) 1) (V.divQ (V.sub w1 w0) 1)))
      (V.smul 6 (V.sub (V.divQ (V.sub w3 w2) 1) (V.divQ (V.sub w2 w1) 1)))
    rw [hg] at this
    cases this
  | some m => exact ⟨_, rfl⟩

theorem interp1d_ok_inv (xs : List ℚ) (ys : List V) (it : Itp)
    (h : interp1dCubic xs ys = Except.ok it) : it.pts = xs ∧ it.vals = ys := by
  unfold interp1dCubic at h
  split at h
  · cases h
  · cases hg : gaussSolve (buildA xs) (buildB xs ys) with
    | none => rw [hg] at h; cases h
    | some m =>
      rw [hg, Option.elim_some] at h
      cases h
      exact ⟨rfl, rfl⟩

/-- Evaluating a spline whose stored values are all NaN gives NaN. -/
theorem evalItp_nan (it : Itp) (q : ℚ) (h : ∀ w ∈ it.vals, w = V.nan) :
    evalItp it q = V.nan := by
  unfold evalItp
  rw [getD_nan_of_all_nan it.vals h, getD_nan_of_all_nan it.vals h]
  exact segEval_nan _ _ _ _ _

/-! ## Lemmas about the per-location computation -/

/-- With 2 or 3 valid samples the per-location fit raises the
`interp1d` ValueError: cubic interpolation wants at least 4 points. -/
theorem pixel_valueError (d : Volume) (missing : ℤ) (x y : ℕ)
    (h2 : ¬(validIndices (tDim d) missing).isEmpty = true)
    (h3 : 2 ≤ (validIndices (tDim d) missing).length)
    (h4 : (validIndices (tDim d) missing).length < 4) :
    pixelResult d missing x y = Except.error Err.valueError := by
  unfold pixelResult
  rw [if_neg h2, if_pos h3, fitEval, interp1dCubic, if_pos (by simpa using h4)]
  rfl

/-- The per-location result is a function of the location's time series
(and the missing index) only. -/
theorem pixel_congr (d1 d2 : Volume) (missing : ℤ) (x y : ℕ)
    (hT : tDim d1 = tDim d2)
    (hts : ∀ t, t < tDim d1 → vget d1 t x y = vget d2 t x y) :
    pixelResult d1 missing x y = pixelResult d2 missing x y := by
  unfold pixelResult
  rw [← hT]
  have hys : (validIndices (tDim d1) missing).map (fun i => vget d1 i x y)
      = (validIndices (tDim d1) missing).map (fun i => vget d2 i x y) := by
    apply List.map_congr_left
    intro i hi
    exact hts i ((mem_validIndices _ _ _).mp hi).1
  rw [hys]

/-- A location whose valid samples are all NaN that still reaches the
fit produces NaN, never an original data value. -/
theorem pixel_nan (d : Volume) (missing : ℤ) (x y : ℕ) (v : V)
    (hnan : ∀ i ∈ validIndices (tDim d) missing, vget d i x y = V.nan)
    (hp : pixelResult d missing x y = Except.ok (Option.some v)) : v = V.nan := by
  unfold pixelResult at hp
  by_cases h1 : (validIndices (tDim d) missing).isEmpty = true
  · rw [if_pos h1] at hp; cases hp
  · rw [if_neg h1] at hp
    by_cases h2 : 2 ≤ (validIndices (tDim d) missing).length
    · rw [if_pos h2, fitEval] at hp
      cases hit : interp1dCubic ((validIndices (tDim d) missing).map (fun (i : ℕ) => (i : ℚ)))
          ((validIndices (tDim d) missing).map (fun i => vget d i x y)) with
      | error e => rw [hit] at hp; cases hp
      | ok it =>
        rw [hit] at hp
        have hv : evalItp it (missing : ℚ) = v := by
          have := Except.ok.inj hp
          exact Option.some.inj this
        rw [← hv]
        apply evalItp_nan
        rw [(interp1d_ok_inv _ _ _ hit).2]
        intro w hw
        obtain ⟨i, hi, rfl⟩ := List.mem_map.mp hw
        exact hnan i hi
    · rw [if_neg h2] at hp
      exact Option.noConfusion (Except.ok.inj hp)

theorem vi50 : validIndices 5 0 = [1,2,3,4] := by decide

theorem pixel5_ok (d : Volume) (x y : ℕ) (hT : tDim d = 5) :
    ∃ v, pixelResult d 0 x y = Except.ok (Option.some v) := by
  unfold pixelResult
  rw [hT, vi50]
  rw [if_neg (by norm_num), if_pos (by norm_num)]
  have hpts : (([1,2,3,4] : List ℕ).map (fun (i : ℕ) => (i : ℚ))) = [1,2,3,4] := by
    norm_num
  rw [hpts]
  obtain ⟨it, hit⟩ := interpOk_1234 (vget d 1 x y) (vget d 2 x y) (vget d 3 x y) (vget d 4 x y)
  rw [List.map_cons, List.map_cons, List.map_cons, List.map_cons, List.map_nil]
  rw [fitEval, hit]
  exact ⟨_, rfl⟩

theorem pixel5_val (d : Volume) (x y : ℕ) (a1 a2 a3 a4 : ℚ) (hT : tDim d = 5)
    (h1 : vget d 1 x y = V.num a1) (h2 : vget d 2 x y = V.num a2)
    (h3 : vget d 3 x y = V.num a3) (h4 : vget d 4 x y = V.num a4) :
    pixelResult d 0 x y
    = Except.ok (Option.some (V.num (4*a1 - 6*a2 + 4*a3 - a4))) := by
  unfold pixelResult
  rw [hT, vi50]
  rw [if_neg (by norm_num), if_pos (by norm_num)]
  have hpts : (([1,2,3,4] : List ℕ).map (fun (i : ℕ) => (i : ℚ))) = [1,2,3,4] := by
    norm_num
  rw [hpts, List.map_cons, List.map_cons, List.map_cons, List.map_cons, List.map_nil,
    h1, h2, h3, h4]
  rw [show ((0:ℤ):ℚ) = 0 from by norm_num, fit1234]
  rfl

/-- With T = 4 and a too-large missing index nothing is excluded either:
all four samples are fitted (the 4-point system is always solvable), so
the per-location step itself cannot raise. -/
theorem pixel4_ge_ok (d : Volume) (missing : ℤ) (x y : ℕ) (hT : tDim d = 4)
    (hm : (4 : ℤ) ≤ missing) :
    ∃ v, pixelResult d missing x y = Except.ok (Option.some v) := by
  unfold pixelResult
  rw [hT]
  rw [show validIndices 4 missing = [0, 1, 2, 3] from by
    rw [validIndices_of_ge 4 missing (by exact_mod_cast hm)]
    decide]
  rw [if_neg (by norm_num), if_pos (by norm_num)]
  have hpts : (([0,1,2,3] : List ℕ).map (fun (i : ℕ) => (i : ℚ))) = [0,1,2,3] := by
    norm_num
  rw [hpts]
  obtain ⟨it, hit⟩ := interpOk_0123 (vget d 0 x y) (vget d 1 x y) (vget d 2 x y)
    (vget d 3 x y)
  rw [List.map_cons, List.map_cons, List.map_cons, List.map_cons, List.map_nil]
  rw [fitEval, hit]
  exact ⟨_, rfl⟩

/-! ## Shape preservation of the loop -/

theorem xDim_vset (d : Volume) (t x y : ℕ) (v : V) : xDim (vset d t x y v) = xDim d := by
  unfold xDim vset
  by_cases ht : t = 0
  · subst ht
    by_cases hlt : 0 < d.length
    · rw [getD_set_self _ _ _ _ hlt, List.length_set]
    · rw [List.set_eq_of_length_le (Nat.le_of_not_lt hlt)]
  · rw [getD_set_ne _ _ _ _ _ ht]

theorem yDim_vset (d : Volume) (t x y : ℕ) (v : V) : yDim (vset d t x y v) = yDim d := by
  unfold yDim vset
  by_cases ht : t = 0
  · subst ht
    by_cases hlt : 0 < d.length
    · rw [getD_set_self _ _ _ _ hlt]
      by_cases hx : x = 0
      · subst hx
        by_cases hxl : 0 < (d.getD 0 []).length
        · rw [getD_set_self _ _ _ _ hxl, List.length_set]
        · rw [List.set_eq_of_length_le (Nat.le_of_not_lt hxl)]
      · rw [getD_set_ne _ _ _ _ _ hx]
    · rw [List.set_eq_of_length_le (Nat.le_of_not_lt hlt)]
  · rw [getD_set_ne _ _ _ _ _ ht]

theorem dims_locStep (d : Volume) (missing : ℤ) (st st' : Volume × List (ℕ × ℕ))
    (p : ℕ × ℕ) (h : locStep d missing st p = Except.ok st') :
    tDim st'.1 = tDim st.1 ∧ xDim st'.1 = xDim st.1 ∧ yDim st'.1 = yDim st.1 := by
  rcases locStep_ok_cases d missing st st' p h with ⟨_, rfl⟩ | ⟨v, j, _, _, rfl⟩
  · exact ⟨rfl, rfl, rfl⟩
  · exact ⟨tDim_vset _ _ _ _ _, xDim_vset _ _ _ _ _, yDim_vset _ _ _ _ _⟩

theorem runLocs_dims (d : Volume) (missing : ℤ) (st out : Volume × List (ℕ × ℕ))
    (L : List (ℕ × ℕ)) (h : runLocs d missing st L = Except.ok out) :
    tDim out.1 = tDim st.1 ∧ xDim out.1 = xDim st.1 ∧ yDim out.1 = yDim st.1 := by
  induction L generalizing st with
  | nil => cases h; exact ⟨rfl, rfl, rfl⟩
  | cons p ps ih =>
    obtain ⟨st', hstep, hrun⟩ := runLocs_cons_ok d missing st out p ps h
    obtain ⟨e1, e2, e3⟩ := dims_locStep d missing st st' p hstep
    obtain ⟨f1, f2, f3⟩ := ih st' hrun
    exact ⟨f1.trans e1, f2.trans e2, f3.trans e3⟩

/-- A location is only ever skipped when fewer than 2 valid samples
exist there. -/
theorem pixel_skip_inv (d : Volume) (missing : ℤ) (x y : ℕ)
    (h : pixelResult d missing x y = Except.ok Option.none) :
    (validIndices (tDim d) missing).length < 2 := by
  unfold pixelResult at h
  by_cases h1 : (validIndices (tDim d) missing).isEmpty = true
  · rw [if_pos h1] at h; cases h
  · rw [if_neg h1] at h
    by_cases h2 : 2 ≤ (validIndices (tDim d) missing).length
    · rw [if_pos h2] at h
      exfalso
      cases hf : fitEval ((validIndices (tDim d) missing).map (fun (i : ℕ) => (i : ℚ)))
          ((validIndices (tDim d) missing).map (fun i => vget d i x y)) (missing : ℚ) with
      | error e => rw [hf] at h; cases h
      | ok w =>
        rw [hf] at h
        exact Option.noConfusion (Except.ok.inj h)
    · omega

/-! ## Claim theorems -/

/-- C1: at T = 3 with missingIndex = 1 every location has exactly the 2
ValidSamples the spec's degenerate-fit rule covers, yet the call raises
the cubic interpolator's ValueError (4 points required) instead of
returning the linear 2-point fit: the code's own `>= 2` guard promises a
fit it cannot deliver. -/
theorem C1_two_sample_fit_raises :
    (validIndices (tDim ([[[V.num 0]], [[V.num 1]], [[V.num 2]]] : Volume)) 1).length = 2
    ∧ interpolate_missing_data_3d_spline [[[V.num 0]], [[V.num 1]], [[V.num 2]]] 1
      = Except.error Err.valueError := by
  constructor
  · decide
  · with_unfolding_all rfl

/-- C3: on an accepted call with an in-range missing index, every time
slice other than the missing one is returned bit-identically. -/
theorem C3_non_target_invariance (d : Volume) (missing : ℤ) (out : Volume)
    (ds : List (ℕ × ℕ)) (h0 : 0 ≤ missing) (h1 : missing < (tDim d : ℤ))
    (hok : interpolate_missing_data_3d_spline d missing = Except.ok (out, ds))
    (t : ℕ) (ht : (t : ℤ) ≠ missing) (x y : ℕ) :
    vget out t x y = vget d t x y := by
  unfold interpolate_missing_data_3d_spline at hok
  refine runLocs_preserve_ne d missing (d, []) (out, ds) _ hok t x y ?_
  intro j hj
  rw [wrapIdx_valid missing (tDim d) h0 h1] at hj
  cases hj
  omega

/-- C3 witness: a T = 5 call that really rewrites slice 0 leaves slice 1
unchanged. -/
theorem C3_non_target_invariance_witness :
    vget [[[V.num (-1)]], [[V.num 0]], [[V.num 0]], [[V.num 0]], [[V.num 1]]] 1 0 0
    = vget [[[V.num 9]], [[V.num 0]], [[V.num 0]], [[V.num 0]], [[V.num 1]]] 1 0 0 :=
  C3_non_target_invariance
    [[[V.num 9]], [[V.num 0]], [[V.num 0]], [[V.num 0]], [[V.num 1]]] 0
    [[[V.num (-1)]], [[V.num 0]], [[V.num 0]], [[V.num 0]], [[V.num 1]]] []
    (by decide) (by decide) (by with_unfolding_all rfl) 1 (by decide) 0 0

/-- C4 counterexample: with T = 1 and missingIndex = 0 a location has 0
ValidSamples (fewer than 2), yet the whole call raises IndexError (the
empty valid-index list becomes a float-dtype numpy index array) instead
of skipping that location with a diagnostic. -/
theorem C4_counterexample :
    (validIndices (tDim ([[[V.num 5]]] : Volume)) 0).length < 2
    ∧ interpolate_missing_data_3d_spline [[[V.num 5]]] 0 = Except.error Err.indexError := by
  constructor
  · decide
  · with_unfolding_all rfl

/-- C4 amended: at a location with exactly one ValidSample (rather than
fewer than 2) the call succeeds, returns the input array unchanged, and
reports every location — in particular (x, y) — as skipped. -/
theorem C4_amended_skip (d : Volume) (missing : ℤ) (x y : ℕ)
    (h0 : 0 ≤ missing) (h1 : missing < (tDim d : ℤ))
    (hcount : (validIndices (tDim d) missing).length = 1)
    (hx : x < xDim d) (hy : y < yDim d) :
    interpolate_missing_data_3d_spline d missing
      = Except.ok (d, allLocs (xDim d) (yDim d))
    ∧ (x, y) ∈ allLocs (xDim d) (yDim d) := by
  constructor
  · unfold interpolate_missing_data_3d_spline
    have hall := runLocs_skip_all d missing (d, []) (allLocs (xDim d) (yDim d)) ?_
    · simpa using hall
    · intro p hp
      unfold pixelResult
      have hne : ¬(validIndices (tDim d) missing).isEmpty = true := by
        intro hcon
        rw [List.isEmpty_iff] at hcon
        rw [hcon] at hcount
        cases hcount
      have hlt : ¬2 ≤ (validIndices (tDim d) missing).length := by omega
      rw [if_neg hne, if_neg hlt]
  · exact (mem_allLocs _ _ _ _).mpr ⟨hx, hy⟩

/-- C4 witness: T = 2 leaves one valid sample per location; the call
returns the array untouched and flags location (0, 0). -/
theorem C4_amended_skip_witness :
    interpolate_missing_data_3d_spline [[[V.num 1]], [[V.num 2]]] 0
      = Except.ok ([[[V.num 1]], [[V.num 2]]],
          allLocs (xDim [[[V.num 1]], [[V.num 2]]]) (yDim [[[V.num 1]], [[V.num 2]]]))
    ∧ (0, 0) ∈ allLocs (xDim ([[[V.num 1]], [[V.num 2]]] : Volume))
        (yDim ([[[V.num 1]], [[V.num 2]]] : Volume)) :=
  C4_amended_skip [[[V.num 1]], [[V.num 2]]] 0 0 0 (by decide) (by decide) (by decide)
    (by decide) (by decide)

/-- C5: an accepted call with a valid missing index returns an array of
exactly the input's (T, X, Y) shape. -/
theorem C5_shape_preservation (d : Volume) (missing : ℤ) (out : Volume)
    (ds : List (ℕ × ℕ)) (h0 : 0 ≤ missing) (h1 : missing < (tDim d : ℤ))
    (hok : interpolate_missing_data_3d_spline d missing = Except.ok (out, ds)) :
    tDim out = tDim d ∧ xDim out = xDim d ∧ yDim out = yDim d := by
  unfold interpolate_missing_data_3d_spline at hok
  exact runLocs_dims d missing (d, []) (out, ds) _ hok

/-- C5 witness at a T = 5 call that modifies the array. -/
theorem C5_shape_preservation_witness :
    tDim ([[[V.num (-1)]], [[V.num 0]], [[V.num 0]], [[V.num 0]], [[V.num 1]]] : Volume)
      = tDim ([[[V.num 9]], [[V.num 0]], [[V.num 0]], [[V.num 0]], [[V.num 1]]] : Volume)
    ∧ xDim ([[[V.num (-1)]], [[V.num 0]], [[V.num 0]], [[V.num 0]], [[V.num 1]]] : Volume)
      = xDim ([[[V.num 9]], [[V.num 0]], [[V.num 0]], [[V.num 0]], [[V.num 1]]] : Volume)
    ∧ yDim ([[[V.num (-1)]], [[V.num 0]], [[V.num 0]], [[V.num 0]], [[V.num 1]]] : Volume)
      = yDim ([[[V.num 9]], [[V.num 0]], [[V.num 0]], [[V.num 0]], [[V.num 1]]] : Volume) :=
  C5_shape_preservation [[[V.num 9]], [[V.num 0]], [[V.num 0]], [[V.num 0]], [[V.num 1]]] 0
    [[[V.num (-1)]], [[V.num 0]], [[V.num 0]], [[V.num 0]], [[V.num 1]]] []
    (by decide) (by decide) (by with_unfolding_all rfl)

/-- C9: with a non-empty grid and an in-range missing index, T = 3 or
T = 4 gives every location only 2 or 3 ValidSamples, the cubic
interpolator rejects them and the whole call raises ValueError; hence an
accepted call needs T ≤ 2 or T ≥ 5. -/
theorem C9_small_T_raises (d : Volume) (missing : ℤ)
    (hx : 0 < xDim d) (hy : 0 < yDim d)
    (h0 : 0 ≤ missing) (h1 : missing < (tDim d : ℤ)) :
    ((tDim d = 3 ∨ tDim d = 4) →
      interpolate_missing_data_3d_spline d missing = Except.error Err.valueError)
    ∧ (∀ out ds, interpolate_missing_data_3d_spline d missing = Except.ok (out, ds) →
        tDim d ≤ 2 ∨ 5 ≤ tDim d) := by
  have herr : (tDim d = 3 ∨ tDim d = 4) →
      interpolate_missing_data_3d_spline d missing = Except.error Err.valueError := by
    intro hT
    have hlen : (validIndices (tDim d) missing).length = tDim d - 1 :=
      length_validIndices _ _ h0 h1
    have hT34 : tDim d = 3 ∨ tDim d = 4 := hT
    have hpix : pixelResult d missing 0 0 = Except.error Err.valueError := by
      apply pixel_valueError
      · intro hcon
        rw [List.isEmpty_iff] at hcon
        rw [hcon] at hlen
        rcases hT34 with h | h <;> rw [h] at hlen <;> cases hlen
      · rcases hT34 with h | h <;> omega
      · rcases hT34 with h | h <;> omega
    obtain ⟨rest, hcons⟩ := allLocs_head (xDim d) (yDim d) hx hy
    unfold interpolate_missing_data_3d_spline
    rw [hcons]
    exact runLocs_cons_error _ _ _ _ _ _ (locStep_error_of_pixel _ _ _ (0, 0) _ hpix)
  refine ⟨herr, ?_⟩
  intro out ds hok
  by_contra hcon
  push_neg at hcon
  have := herr (by omega)
  rw [this] at hok
  cases hok

/-- C9 witness at T = 3. -/
theorem C9_small_T_raises_witness :
    interpolate_missing_data_3d_spline [[[V.num 0]], [[V.num 1]], [[V.num 2]]] 2
    = Except.error Err.valueError :=
  (C9_small_T_raises [[[V.num 0]], [[V.num 1]], [[V.num 2]]] 2 (by decide) (by decide)
    (by decide) (by decide)).1 (Or.inl (by decide))

/-- C2 counterexample: missing_index = -1 is out of [0, T) yet the call
neither fails fast nor leaves the data alone: it returns successfully
and silently rewrites slice T-1 (Python negative indexing), with a value
(-1) different from the input value (1) there. -/
theorem C2_counterexample :
    interpolate_missing_data_3d_spline
        [[[V.num 0]], [[V.num 0]], [[V.num 0]], [[V.num 1]]] (-1)
      = Except.ok ([[[V.num 0]], [[V.num 0]], [[V.num 0]], [[V.num (-1)]]], [])
    ∧ vget [[[V.num 0]], [[V.num 0]], [[V.num 0]], [[V.num (-1)]]] 3 0 0
      ≠ vget [[[V.num 0]], [[V.num 0]], [[V.num 0]], [[V.num 1]]] 3 0 0 := by
  constructor
  · with_unfolding_all rfl
  · intro hcon
    have := V.num.inj hcon
    norm_num at this

/-- C2 amended: the code never range-checks missing_index, so no
InvalidArgument is ever raised and no out-of-range index is clamped.
For missing_index ≥ T on a non-empty grid with T ≥ 2 the call always
ends in a lazily raised error: the fit's ValueError when T = 2 or 3
(2–3 samples are below the cubic minimum), and an IndexError at the
out-of-range write — after all T samples were fitted — when T = 4; for
larger T some error is still raised.  Negative in-range indices are not
rejected either: at T = 4 the call returns successfully and silently
rewrites slice T + missing_index (the counterexample), and at T = 2 or
3 it raises the fit's ValueError, again not an InvalidArgument (first
prong of C10's counterexample).  The input array itself is copied up
front and never mutated in any outcome. -/
theorem C2_amended_late_error (d : Volume) (missing : ℤ)
    (hx : 0 < xDim d) (hy : 0 < yDim d) (hT : 2 ≤ tDim d)
    (hm : (tDim d : ℤ) ≤ missing) :
    (∃ e, interpolate_missing_data_3d_spline d missing = Except.error e)
    ∧ ((tDim d = 2 ∨ tDim d = 3) →
        interpolate_missing_data_3d_spline d missing = Except.error Err.valueError)
    ∧ (tDim d = 4 →
        interpolate_missing_data_3d_spline d missing = Except.error Err.indexError) := by
  obtain ⟨rest, hcons⟩ := allLocs_head _ _ hx hy
  have hvi : validIndices (tDim d) missing = List.range (tDim d) :=
    validIndices_of_ge _ _ hm
  refine ⟨?_, ?_, ?_⟩
  · unfold interpolate_missing_data_3d_spline
    rw [hcons]
    cases hp : pixelResult d missing 0 0 with
    | error e =>
      exact ⟨e, runLocs_cons_error _ _ _ _ _ _ (locStep_error_of_pixel _ _ _ (0, 0) _ hp)⟩
    | ok v =>
      cases v with
      | none =>
        exfalso
        have := pixel_skip_inv d missing 0 0 hp
        rw [hvi, List.length_range] at this
        omega
      | some w =>
        refine ⟨Err.indexError, ?_⟩
        apply runLocs_cons_error
        have hw : wrapIdx missing (tDim d) = Option.none := wrapIdx_none_of_ge _ _ hm
        simp only [locStep, hp, hw]
  · intro hT23
    have hpix : pixelResult d missing 0 0 = Except.error Err.valueError := by
      apply pixel_valueError
      · rw [hvi]
        intro hcon
        rw [List.isEmpty_iff] at hcon
        have hlen := congrArg List.length hcon
        rw [List.length_range] at hlen
        simp at hlen
        omega
      · rw [hvi, List.length_range]
        exact hT
      · rw [hvi, List.length_range]
        rcases hT23 with h | h <;> omega
    unfold interpolate_missing_data_3d_spline
    rw [hcons]
    exact runLocs_cons_error _ _ _ _ _ _ (locStep_error_of_pixel _ _ _ (0, 0) _ hpix)
  · intro hT4
    obtain ⟨w, hp⟩ := pixel4_ge_ok d missing 0 0 hT4 (by rw [hT4] at hm; exact_mod_cast hm)
    unfold interpolate_missing_data_3d_spline
    rw [hcons]
    apply runLocs_cons_error
    have hw : wrapIdx missing (tDim d) = Option.none := wrapIdx_none_of_ge _ _ hm
    simp only [locStep, hp, hw]

/-- C2 amended witness: T = 2 with missing_index = 7 raises the fit's
ValueError; T = 4 with missing_index = 9 raises IndexError at the
write. -/
theorem C2_amended_late_error_witness :
    interpolate_missing_data_3d_spline [[[V.num 1]], [[V.num 2]]] 7
      = Except.error Err.valueError
    ∧ interpolate_missing_data_3d_spline
        [[[V.num 0]], [[V.num 0]], [[V.num 0]], [[V.num 1]]] 9
      = Except.error Err.indexError :=
  ⟨(C2_amended_late_error [[[V.num 1]], [[V.num 2]]] 7 (by decide) (by decide) (by decide)
      (by decide)).2.1 (Or.inl (by decide)),
    (C2_amended_late_error [[[V.num 0]], [[V.num 0]], [[V.num 0]], [[V.num 1]]] 9
      (by decide) (by decide) (by decide) (by decide)).2.2 (by decide)⟩

/-- C6: the spec's boundary setup (T = 5, missingIndex = 0, numeric
samples): the call accepts and stores at the boundary slice the value of
the interpolating cubic through the four samples at times 1..4
extrapolated to time 0 — the finite number 4a₁ - 6a₂ + 4a₃ - a₄, not an
error, not NaN, and not a clamp to the nearest sample. -/
theorem C6_boundary_extrapolation (d : Volume) (x y : ℕ) (a1 a2 a3 a4 : ℚ)
    (hR : RectShape d (tDim d) (xDim d) (yDim d)) (hT : tDim d = 5)
    (hx : x < xDim d) (hy : y < yDim d)
    (h1 : vget d 1 x y = V.num a1) (h2 : vget d 2 x y = V.num a2)
    (h3 : vget d 3 x y = V.num a3) (h4 : vget d 4 x y = V.num a4) :
    ∃ out ds, interpolate_missing_data_3d_spline d 0 = Except.ok (out, ds)
      ∧ vget out 0 x y = V.num (4*a1 - 6*a2 + 4*a3 - a4) := by
  have hw : wrapIdx 0 (tDim d) = Option.some 0 := by rw [hT]; decide
  obtain ⟨⟨out, ds⟩, hok⟩ := runLocs_all_ok d 0 (d, []) (allLocs (xDim d) (yDim d)) 0
    (fun p _ => (pixel5_ok d p.1 p.2 hT).elim (fun v hv => ⟨Option.some v, hv⟩)) hw rfl
  have hok2 : interpolate_missing_data_3d_spline d 0 = Except.ok (out, ds) := hok
  refine ⟨out, ds, hok2, ?_⟩
  have hval := pixel5_val d x y a1 a2 a3 a4 hT h1 h2 h3 h4
  rcases run_char d 0 out ds hR hok2 x y hx hy with ⟨hpix, _⟩ | ⟨v, j, hpix, hwj, hcell, _⟩
  · rw [hval] at hpix
    exact Option.noConfusion (Except.ok.inj hpix)
  · rw [hval] at hpix
    have hv := Option.some.inj (Except.ok.inj hpix)
    rw [hw] at hwj
    have hj := Option.some.inj hwj
    rw [← hj, ← hv] at hcell
    exact hcell

/-- C6 witness: samples 0, 0, 0, 1 at times 1..4 extrapolate to -1 at
time 0 (a clamp to the nearest sample would give 0). -/
theorem C6_boundary_extrapolation_witness :
    ∃ out ds, interpolate_missing_data_3d_spline
        [[[V.num 9]], [[V.num 0]], [[V.num 0]], [[V.num 0]], [[V.num 1]]] 0
      = Except.ok (out, ds)
      ∧ vget out 0 0 0 = V.num (4*0 - 6*0 + 4*0 - 1) :=
  C6_boundary_extrapolation
    [[[V.num 9]], [[V.num 0]], [[V.num 0]], [[V.num 0]], [[V.num 1]]] 0 0 0 0 0 1
    (by decide) (by decide) (by decide) (by decide) rfl rfl rfl rfl

/-- C7 counterexample: T = 5, original value 7 at the missing slice, all
non-missing steps NaN.  The code performs no sentinel filtering — the
`>= 2` check counts the NaN entries — so the location is fitted anyway
and the output at the missing position becomes NaN, not the preserved
original value 7. -/
theorem C7_counterexample :
    interpolate_missing_data_3d_spline
        [[[V.num 7]], [[V.nan]], [[V.nan]], [[V.nan]], [[V.nan]]] 0
      = Except.ok ([[[V.nan]], [[V.nan]], [[V.nan]], [[V.nan]], [[V.nan]]], [])
    ∧ vget [[[V.nan]], [[V.nan]], [[V.nan]], [[V.nan]], [[V.nan]]] 0 0 0
      ≠ vget [[[V.num 7]], [[V.nan]], [[V.nan]], [[V.nan]], [[V.nan]]] 0 0 0 := by
  constructor
  · with_unfolding_all rfl
  · decide

/-- C7 amended: no NaN/sentinel filtering exists.  When all non-missing
samples at a location are NaN the location still counts all of them as
ValidSamples; whenever the call nevertheless succeeds, the stored value
at the missing position is NaN — the original value is overwritten, not
preserved.  (With only 2 or 3 non-missing steps the call instead raises
ValueError, see C9.) -/
theorem C7_amended_nan_overwrites (d : Volume) (missing : ℤ) (out : Volume)
    (ds : List (ℕ × ℕ)) (x y : ℕ)
    (hR : RectShape d (tDim d) (xDim d) (yDim d))
    (h0 : 0 ≤ missing) (h1 : missing < (tDim d : ℤ))
    (hx : x < xDim d) (hy : y < yDim d)
    (hnan : ∀ t, t < tDim d → (t : ℤ) ≠ missing → vget d t x y = V.nan)
    (hfit : 2 ≤ (validIndices (tDim d) missing).length)
    (hok : interpolate_missing_data_3d_spline d missing = Except.ok (out, ds)) :
    vget out missing.toNat x y = V.nan := by
  rcases run_char d missing out ds hR hok x y hx hy with ⟨hpix, _⟩ | ⟨v, j, hpix, hwj, hcell, _⟩
  · have := pixel_skip_inv d missing x y hpix
    omega
  · have hj : j = missing.toNat := by
      rw [wrapIdx_valid missing (tDim d) h0 h1] at hwj
      exact (Option.some.inj hwj).symm
    subst hj
    rw [hcell]
    apply pixel_nan d missing x y v ?_ hpix
    intro i hi
    obtain ⟨hilt, hine⟩ := (mem_validIndices _ _ _).mp hi
    exact hnan i hilt hine

/-- C7 witness: the concrete all-NaN T = 5 location. -/
theorem C7_amended_nan_overwrites_witness :
    vget [[[V.nan]], [[V.nan]], [[V.nan]], [[V.nan]], [[V.nan]]] (Int.toNat 0) 0 0
    = V.nan :=
  C7_amended_nan_overwrites
    [[[V.num 7]], [[V.nan]], [[V.nan]], [[V.nan]], [[V.nan]]] 0
    [[[V.nan]], [[V.nan]], [[V.nan]], [[V.nan]], [[V.nan]]] [] 0 0
    (by decide) (by decide) (by decide) (by decide) (by decide) (by decide) (by decide)
    (by with_unfolding_all rfl)

/-- C8: the reconstructed value at a location depends only on that
location's time series and the missing index: two accepted calls on
volumes that agree along the whole time series at (x, y) — whatever the
data anywhere else — store the same value there. -/
theorem C8_location_independence (d1 d2 : Volume) (missing : ℤ)
    (o1 o2 : Volume) (ds1 ds2 : List (ℕ × ℕ)) (x y : ℕ)
    (hR1 : RectShape d1 (tDim d1) (xDim d1) (yDim d1))
    (hR2 : RectShape d2 (tDim d2) (xDim d2) (yDim d2))
    (hT : tDim d1 = tDim d2)
    (h0 : 0 ≤ missing) (h1 : missing < (tDim d1 : ℤ))
    (hx1 : x < xDim d1) (hy1 : y < yDim d1)
    (hx2 : x < xDim d2) (hy2 : y < yDim d2)
    (hts : ∀ t, t < tDim d1 → vget d1 t x y = vget d2 t x y)
    (hok1 : interpolate_missing_data_3d_spline d1 missing = Except.ok (o1, ds1))
    (hok2 : interpolate_missing_data_3d_spline d2 missing = Except.ok (o2, ds2)) :
    vget o1 missing.toNat x y = vget o2 missing.toNat x y := by
  have hpc := pixel_congr d1 d2 missing x y hT hts
  rcases run_char d1 missing o1 ds1 hR1 hok1 x y hx1 hy1 with
    ⟨hp1, hall1⟩ | ⟨v1, j1, hp1, hw1, hc1, _⟩
  · rcases run_char d2 missing o2 ds2 hR2 hok2 x y hx2 hy2 with
      ⟨hp2, hall2⟩ | ⟨v2, j2, hp2, hw2, hc2, _⟩
    · rw [hall1 _, hall2 _]
      exact hts missing.toNat (by omega)
    · rw [hp1, hp2] at hpc
      exact Option.noConfusion (Except.ok.inj hpc)
  · rcases run_char d2 missing o2 ds2 hR2 hok2 x y hx2 hy2 with
      ⟨hp2, hall2⟩ | ⟨v2, j2, hp2, hw2, hc2, _⟩
    · rw [hp1, hp2] at hpc
      exact Option.noConfusion (Except.ok.inj hpc)
    · have hj1 : j1 = missing.toNat := by
        rw [wrapIdx_valid missing (tDim d1) h0 h1] at hw1
        exact (Option.some.inj hw1).symm
      have hj2 : j2 = missing.toNat := by
        rw [wrapIdx_valid missing (tDim d2) h0 (by omega)] at hw2
        exact (Option.some.inj hw2).symm
      rw [hp1, hp2] at hpc
      have hv : v1 = v2 := Option.some.inj (Except.ok.inj hpc)
      subst hj1
      subst hj2
      rw [hc1, hc2, hv]

/-- C8 witness: two T = 5 volumes with a 2-wide x axis that differ only
at the other location x = 1 store the same value at (0, 0). -/
theorem C8_location_independence_witness :
    vget [[[V.num (-1)], [V.num 0]], [[V.num 0], [V.num 0]], [[V.num 0], [V.num 0]],
        [[V.num 0], [V.num 0]], [[V.num 1], [V.num 0]]] (Int.toNat 0) 0 0
    = vget [[[V.num (-1)], [V.num 27]], [[V.num 0], [V.num 7]], [[V.num 0], [V.num 1]],
        [[V.num 0], [V.num 2]], [[V.num 1], [V.num 3]]] (Int.toNat 0) 0 0 :=
  C8_location_independence
    [[[V.num 9], [V.num 0]], [[V.num 0], [V.num 0]], [[V.num 0], [V.num 0]],
      [[V.num 0], [V.num 0]], [[V.num 1], [V.num 0]]]
    [[[V.num 9], [V.num 5]], [[V.num 0], [V.num 7]], [[V.num 0], [V.num 1]],
      [[V.num 0], [V.num 2]], [[V.num 1], [V.num 3]]] 0
    [[[V.num (-1)], [V.num 0]], [[V.num 0], [V.num 0]], [[V.num 0], [V.num 0]],
      [[V.num 0], [V.num 0]], [[V.num 1], [V.num 0]]]
    [[[V.num (-1)], [V.num 27]], [[V.num 0], [V.num 7]], [[V.num 0], [V.num 1]],
      [[V.num 0], [V.num 2]], [[V.num 1], [V.num 3]]] [] [] 0 0
    (by decide) (by decide) (by decide) (by decide) (by decide)
    (by decide) (by decide) (by decide) (by decide) (by decide)
    (by with_unfolding_all rfl) (by with_unfolding_all rfl)

